import Mathlib

/-!
# Verification of the wasm-dj-controller audio engine

Shallow embedding of the Rust audio engine (`src/audio-engine/src/`).

Modelling conventions:
* `f32` samples and parameters are modelled as `ℚ`.  Every operation the
  claims exercise (`+`, `-`, `*`, `clamp`, `min`, `max`, comparisons,
  `floor`, `ceil`, decimal literals such as `0.95` or `0.001`) is exact on
  the representable values involved, so `ℚ` is a faithful carrier for them.
* Rust `Vec<f32>` becomes `List ℚ`.  The buffer pool (`Vec<Vec<f32>>`) is a
  stack; we keep the top of the stack (the *last* pushed element of the Rust
  `Vec`) at the head of the Lean list, so `pop` is head-removal and `push`
  is cons.
* `usize` casts of non-negative floats (`as usize`, which saturates at `0`
  for negative values) become `Int.toNat` of `⌊·⌋` / `⌈·⌉`.
* The dB→linear conversion `10^(db/20)` and the FFT-based section analysis
  are transcendental and are taken as parameters of the functions that
  mention them; no claim depends on their values.  (`db_to_linear 0 = 1`
  exactly, which is the only value a constructor needs.)
* The `frames_processed` counter is an `AtomicU32` incremented with
  wrapping semantics; we model it as `ℕ` reduced `% 2^32`.
-/

namespace AudioEngine

/-- Rust `f32::clamp(lo, hi)`: `lo` if `x < lo`, `hi` if `x > hi`, else `x`. -/
def rclamp (x lo hi : ℚ) : ℚ := max lo (min x hi)

/-! ## buffer_manager.rs -/

/-- `BufferManager` from `buffer_manager.rs`: a pool of reusable sample
buffers.  Head of `buffer_pool` is the top of the Rust `Vec` stack. -/
structure BufferManager where
  buffer_pool : List (List ℚ)
  buffer_size : ℕ
deriving Repr, DecidableEq

/-- `BufferManager::new`: pre-allocates 4 zero buffers of `buffer_size`. -/
def BufferManager.new (buffer_size : ℕ) : BufferManager :=
  { buffer_pool := List.replicate 4 (List.replicate buffer_size 0)
    buffer_size := buffer_size }

/-- `Vec::truncate(size)` followed by `Vec::resize(size, 0.0)`: keep the
first `size` elements (this does *not* clear them), then pad with zeros up
to `size`. -/
def truncResize (buffer : List ℚ) (size : ℕ) : List ℚ :=
  let b := buffer.take size
  b ++ List.replicate (size - b.length) 0

/-- `BufferManager::get_buffer`: pop a pooled buffer (or allocate
`vec![0.0; buffer_size.max(size)]` when the pool is empty), then
`truncate(size)` and `resize(size, 0.0)`. -/
def BufferManager.get_buffer (bm : BufferManager) (size : ℕ) :
    List ℚ × BufferManager :=
  match bm.buffer_pool with
  | [] => (truncResize (List.replicate (max bm.buffer_size size) 0) size, bm)
  | top :: rest =>
      (truncResize top size, { bm with buffer_pool := rest })

/-- `BufferManager::return_buffer`: push the buffer back only while the
pool holds fewer than 4 buffers, otherwise drop it. -/
def BufferManager.return_buffer (bm : BufferManager) (buffer : List ℚ) :
    BufferManager :=
  if bm.buffer_pool.length < 4 then
    { bm with buffer_pool := buffer :: bm.buffer_pool }
  else bm

/-- `BufferManager::pool_size`. -/
def BufferManager.pool_size (bm : BufferManager) : ℕ := bm.buffer_pool.length

/-- One client-visible buffer-pool operation: a `get_buffer` call (of some
requested size) or a `return_buffer` call (of some buffer). -/
inductive PoolOp where
  | get (size : ℕ)
  | ret (buffer : List ℚ)
deriving Repr, DecidableEq

/-- Apply one pool operation to the manager (the buffer handed out by
`get` goes to the caller, only the manager state is tracked here). -/
def applyPoolOp (bm : BufferManager) : PoolOp → BufferManager
  | .get size => (bm.get_buffer size).2
  | .ret buffer => bm.return_buffer buffer

/-- Run a sequence of pool operations. -/
def runPool (bm : BufferManager) : List PoolOp → BufferManager
  | [] => bm
  | op :: ops => runPool (applyPoolOp bm op) ops

/-! ## fader.rs -/

/-- `Fader` from `fader.rs`: scalar position in `[-1, 1]`. -/
structure Fader where
  position : ℚ
deriving Repr, DecidableEq

/-- `Fader::new`: centered. -/
def Fader.new : Fader := ⟨0⟩

/-- `Fader::set_position`: clamps to `[-1, 1]`. -/
def Fader.set_position (_f : Fader) (position : ℚ) : Fader :=
  ⟨rclamp position (-1) 1⟩

/-- `Fader::get_position`. -/
def Fader.get_position (f : Fader) : ℚ := f.position

/-- `Fader::get_left_gain`: with `t = (position + 1) * 0.5`, returns `1 - t*t`. -/
def Fader.get_left_gain (f : Fader) : ℚ :=
  let t := (f.position + 1) * 0.5
  1 - t * t

/-- `Fader::get_right_gain`: with `t = (position + 1) * 0.5`, returns `t*t`. -/
def Fader.get_right_gain (f : Fader) : ℚ :=
  let t := (f.position + 1) * 0.5
  t * t

/-- The in-place loop `for i in 0..n { buf[i] *= g }`: multiply the first
`n` elements by `g`, leave the rest untouched. -/
def scaleFirst (g : ℚ) : ℕ → List ℚ → List ℚ
  | 0, xs => xs
  | _ + 1, [] => []
  | n + 1, x :: xs => x * g :: scaleFirst g n xs

/-- `Fader::process`: skip entirely at position exactly `0.0`; otherwise
multiply the first `size.min(left.len()).min(right.len())` samples of each
channel by the quadratic crossfade gains. -/
def Fader.process (f : Fader) (left right : List ℚ) (size : ℕ) :
    List ℚ × List ℚ :=
  if f.position = 0 then (left, right)
  else
    let t := (f.position + 1) * 0.5
    let left_gain := 1 - t * t
    let right_gain := t * t
    let n := min (min size left.length) right.length
    (scaleFirst left_gain n left, scaleFirst right_gain n right)

/-! ## equalizer.rs -/

/-- `SimpleFilter` from `equalizer.rs`: linear gain plus one-pole IIR state. -/
structure SimpleFilter where
  gain : ℚ
  state : ℚ
deriving Repr, DecidableEq

/-- The loop body of `SimpleFilter::process`: for each sample
`x' = x * gain; state = state * alpha + x' * (1 - alpha); out = state`,
threading the filter state and returning the final state with the output. -/
def filterRun (gain alpha : ℚ) : ℚ → List ℚ → ℚ × List ℚ
  | st, [] => (st, [])
  | st, x :: xs =>
      let x1 := x * gain
      let st1 := st * alpha + x1 * (1 - alpha)
      let rest := filterRun gain alpha st1 xs
      (rest.1, st1 :: rest.2)

/-- `SimpleFilter::process` on a whole buffer. -/
def SimpleFilter.process (f : SimpleFilter) (alpha : ℚ) (buffer : List ℚ) :
    SimpleFilter × List ℚ :=
  let r := filterRun f.gain alpha f.state buffer
  ({ f with state := r.1 }, r.2)

/-- `SimpleFilter::set_gain`: stores `db_to_linear db`; the conversion
`10^(db/20)` is transcendental, so it is passed in as `dbToLinear`. -/
def SimpleFilter.set_gain (dbToLinear : ℚ → ℚ) (f : SimpleFilter) (db : ℚ) :
    SimpleFilter :=
  { f with gain := dbToLinear db }

/-- `Equalizer` from `equalizer.rs`: three `SimpleFilter` bands plus the
stored per-band dB values. -/
structure Equalizer where
  low_band : SimpleFilter
  mid_band : SimpleFilter
  high_band : SimpleFilter
  low_gain_db : ℚ
  mid_gain_db : ℚ
  high_gain_db : ℚ
deriving Repr, DecidableEq

/-- `Equalizer::new`: flat response.  `SimpleFilter::new(0.0)` stores
`db_to_linear(0.0) = 10^0 = 1` (exact, also in `f32`). -/
def Equalizer.new : Equalizer :=
  { low_band := ⟨1, 0⟩, mid_band := ⟨1, 0⟩, high_band := ⟨1, 0⟩
    low_gain_db := 0, mid_gain_db := 0, high_gain_db := 0 }

/-- `Equalizer::process`: empty buffers are returned untouched; otherwise
the low (alpha 0.95), mid (0.9) and high (0.85) filters run sequentially,
each consuming the previous stage's output and keeping its IIR state. -/
def Equalizer.process (eq : Equalizer) (buffer : List ℚ) :
    Equalizer × List ℚ :=
  if buffer.isEmpty then (eq, buffer)
  else
    let rl := eq.low_band.process 0.95 buffer
    let rm := eq.mid_band.process 0.9 rl.2
    let rh := eq.high_band.process 0.85 rm.2
    ({ eq with low_band := rl.1, mid_band := rm.1, high_band := rh.1 }, rh.2)

/-- `Equalizer::set_low_gain`: clamp to `[-12, 12]`, store the dB value and
update the filter's linear gain. -/
def Equalizer.set_low_gain (dbToLinear : ℚ → ℚ) (eq : Equalizer) (db : ℚ) :
    Equalizer :=
  let db1 := rclamp db (-12) 12
  { eq with low_gain_db := db1
            low_band := eq.low_band.set_gain dbToLinear db1 }

/-- `Equalizer::get_low_gain`. -/
def Equalizer.get_low_gain (eq : Equalizer) : ℚ := eq.low_gain_db

/-- `Equalizer::set_mid_gain`. -/
def Equalizer.set_mid_gain (dbToLinear : ℚ → ℚ) (eq : Equalizer) (db : ℚ) :
    Equalizer :=
  let db1 := rclamp db (-12) 12
  { eq with mid_gain_db := db1
            mid_band := eq.mid_band.set_gain dbToLinear db1 }

/-- `Equalizer::get_mid_gain`. -/
def Equalizer.get_mid_gain (eq : Equalizer) : ℚ := eq.mid_gain_db

/-- `Equalizer::set_high_gain`. -/
def Equalizer.set_high_gain (dbToLinear : ℚ → ℚ) (eq : Equalizer) (db : ℚ) :
    Equalizer :=
  let db1 := rclamp db (-12) 12
  { eq with high_gain_db := db1
            high_band := eq.high_band.set_gain dbToLinear db1 }

/-- `Equalizer::get_high_gain`. -/
def Equalizer.get_high_gain (eq : Equalizer) : ℚ := eq.high_gain_db

/-! ## pitch_shifter.rs -/

/-- `PitchShifter` from `pitch_shifter.rs`. -/
structure PitchShifter where
  sample_rate : ℕ
  fft_size : ℕ
  pitch_ratio : ℚ
  buffer : List ℚ
  read_pos : ℚ
deriving Repr, DecidableEq

/-- `PitchShifter::set_pitch_ratio`: clamps to `[0.5, 2.0]`. -/
def PitchShifter.set_pitch_ratio (ps : PitchShifter) (ratio : ℚ) :
    PitchShifter :=
  { ps with pitch_ratio := rclamp ratio 0.5 2 }

/-- `PitchShifter::get_pitch_ratio`. -/
def PitchShifter.get_pitch_ratio (ps : PitchShifter) : ℚ := ps.pitch_ratio

/-- One output sample of `PitchShifter::_resample`: read position
`idx = i * ratio`, `int_idx = idx.floor() as usize` (saturating at 0),
linear interpolation while `int_idx + 1` is in range, plain copy when only
`int_idx` is, else the zero the output vector was initialised with. -/
def resampleAt (buf : List ℚ) (ratio : ℚ) (i : ℕ) : ℚ :=
  let idx : ℚ := (i : ℚ) * ratio
  let int_idx : ℕ := (⌊idx⌋).toNat
  let frac : ℚ := idx - (int_idx : ℚ)
  if int_idx + 1 < buf.length then
    buf.getD int_idx 0 * (1 - frac) + buf.getD (int_idx + 1) 0 * frac
  else if int_idx < buf.length then buf.getD int_idx 0
  else 0

/-- `PitchShifter::_resample`: same-length output, then copied back. -/
def PitchShifter.resample (ps : PitchShifter) (buf : List ℚ) : List ℚ :=
  (List.range buf.length).map (resampleAt buf ps.pitch_ratio)

/-- `PitchShifter::process_stereo`: no-op while `|ratio - 1| < 0.001`,
otherwise `_resample` each channel in place. -/
def PitchShifter.process_stereo (ps : PitchShifter) (left right : List ℚ) :
    List ℚ × List ℚ :=
  if |ps.pitch_ratio - 1| < 0.001 then (left, right)
  else (ps.resample left, ps.resample right)

/-! ## phase_vocoder.rs -/

/-- `PhaseVocoder` from `phase_vocoder.rs`.  The window, input buffer and
phase history fields are carried but never read by the placeholder
`process`. -/
structure PhaseVocoder where
  fft_size : ℕ
  hop_size : ℕ
  input_buffer : List ℚ
  window : List ℚ
  prev_phase : List ℚ
  grain_position : ℕ
  stretch_ratio : ℚ
deriving Repr, DecidableEq

/-- `PhaseVocoder::set_stretch_ratio`: clamps to `[0.5, 2.0]`. -/
def PhaseVocoder.set_stretch_ratio (pv : PhaseVocoder) (ratio : ℚ) :
    PhaseVocoder :=
  { pv with stretch_ratio := rclamp ratio 0.5 2 }

/-- `PhaseVocoder::get_stretch_ratio`. -/
def PhaseVocoder.get_stretch_ratio (pv : PhaseVocoder) : ℚ :=
  pv.stretch_ratio

/-- `PhaseVocoder::process`: returns the input untouched while
`|stretch_ratio - 1| < 0.001`; otherwise builds an output of
`(input_len / ratio).ceil() as usize` samples by linear interpolation at
source position `i * ratio`. -/
def PhaseVocoder.process (pv : PhaseVocoder) (input : List ℚ) : List ℚ :=
  if |pv.stretch_ratio - 1| < 0.001 then input
  else
    let output_len : ℕ := (⌈(input.length : ℚ) / pv.stretch_ratio⌉).toNat
    (List.range output_len).map (fun (i : ℕ) =>
      let src_pos : ℚ := (i : ℚ) * pv.stretch_ratio
      let src_idx : ℕ := (⌊src_pos⌋).toNat
      if src_idx + 1 < input.length then
        let frac := src_pos - (src_idx : ℚ)
        input.getD src_idx 0 * (1 - frac) + input.getD (src_idx + 1) 0 * frac
      else if src_idx < input.length then input.getD src_idx 0
      else 0)

/-! ## lib.rs -/

/-- `MAX_FRAME_SIZE` from `lib.rs`. -/
def MAX_FRAME_SIZE : ℕ := 4096

/-- `AudioProcessor` from `lib.rs`. -/
structure AudioProcessor where
  sample_rate : ℕ
  fft_size : ℕ
  phase_vocoder : PhaseVocoder
  pitch_shifter : PitchShifter
  equalizer : Equalizer
  fader : Fader
  buffer_manager : BufferManager
  input_gain : ℚ
  master_volume : ℚ
  frames_processed : ℕ
  last_peak_level : ℚ
deriving Repr, DecidableEq

/-- `AudioProcessor::process_frame`.  Invalid frame sizes return an empty
output and leave the state untouched.  Otherwise: acquire two working
buffers from the pool (stage 1's loop writes every index `0..frame_size`
of the freshly acquired length-`frame_size` buffers, so their prior
contents never reach the output and the buffers are determined by the
inputs), run fader, pitch shifter and equalizer, then interleave with the
master volume while tracking this frame's absolute peak.  The working
buffers are dropped at the end of the call: the source contains no
`return_buffer` call, so only the two `get_buffer` pops reach the pool. -/
def AudioProcessor.process_frame (ap : AudioProcessor)
    (input_left input_right : List ℚ) : AudioProcessor × List ℚ :=
  let frame_size := min input_left.length input_right.length
  if frame_size = 0 ∨ frame_size > MAX_FRAME_SIZE then (ap, [])
  else
    let bm1 := (ap.buffer_manager.get_buffer frame_size).2
    let bm2 := (bm1.get_buffer frame_size).2
    -- Stage 1: input gain
    let left1 := (List.range frame_size).map
      (fun i => input_left.getD i 0 * ap.input_gain)
    let right1 := (List.range frame_size).map
      (fun i => input_right.getD i 0 * ap.input_gain)
    -- Stage 2: stereo fader
    let fr := ap.fader.process left1 right1 frame_size
    -- Stage 3: pitch shifting
    let pr := ap.pitch_shifter.process_stereo fr.1 fr.2
    -- Stage 4: 3-band equalizer, left then right, threading filter state
    let el := ap.equalizer.process pr.1
    let er := el.1.process pr.2
    -- Stage 5: master volume, interleave, per-frame peak
    let left4 := el.2
    let right4 := er.2
    let output := (List.range frame_size).flatMap (fun i =>
      [left4.getD i 0 * ap.master_volume, right4.getD i 0 * ap.master_volume])
    let peak := (List.range frame_size).foldl (fun acc i =>
      max (max acc |left4.getD i 0 * ap.master_volume|)
        |right4.getD i 0 * ap.master_volume|) 0
    ({ ap with buffer_manager := bm2
               equalizer := er.1
               last_peak_level := peak
               frames_processed := (ap.frames_processed + 1) % 2 ^ 32 },
     output)

/-- `AudioProcessor::set_input_gain`: clamps to `[0, 2]`. -/
def AudioProcessor.set_input_gain (ap : AudioProcessor) (gain : ℚ) :
    AudioProcessor :=
  { ap with input_gain := rclamp gain 0 2 }

/-- `AudioProcessor::get_input_gain`. -/
def AudioProcessor.get_input_gain (ap : AudioProcessor) : ℚ := ap.input_gain

/-- `AudioProcessor::set_master_volume`: clamps to `[0, 2]`. -/
def AudioProcessor.set_master_volume (ap : AudioProcessor) (volume : ℚ) :
    AudioProcessor :=
  { ap with master_volume := rclamp volume 0 2 }

/-- `AudioProcessor::get_master_volume`. -/
def AudioProcessor.get_master_volume (ap : AudioProcessor) : ℚ :=
  ap.master_volume

/-- `AudioProcessor::set_tempo_ratio`: clamps to `[0.5, 2.0]` and forwards
to the phase vocoder (which clamps again). -/
def AudioProcessor.set_tempo_ratio (ap : AudioProcessor) (ratio : ℚ) :
    AudioProcessor :=
  { ap with phase_vocoder :=
      ap.phase_vocoder.set_stretch_ratio (rclamp ratio 0.5 2) }

/-- `AudioProcessor::get_tempo_ratio`: reads the phase vocoder's ratio. -/
def AudioProcessor.get_tempo_ratio (ap : AudioProcessor) : ℚ :=
  ap.phase_vocoder.get_stretch_ratio

/-- `AudioProcessor::set_fader_position`: forwards to `Fader::set_position`. -/
def AudioProcessor.set_fader_position (ap : AudioProcessor) (position : ℚ) :
    AudioProcessor :=
  { ap with fader := ap.fader.set_position position }

/-- `AudioProcessor::get_fader_position`. -/
def AudioProcessor.get_fader_position (ap : AudioProcessor) : ℚ :=
  ap.fader.get_position

/-- `AudioProcessor::set_low_gain`: forwards to the equalizer. -/
def AudioProcessor.set_low_gain (dbToLinear : ℚ → ℚ) (ap : AudioProcessor)
    (db : ℚ) : AudioProcessor :=
  { ap with equalizer := ap.equalizer.set_low_gain dbToLinear db }

/-- `AudioProcessor::get_low_gain`. -/
def AudioProcessor.get_low_gain (ap : AudioProcessor) : ℚ :=
  ap.equalizer.get_low_gain

/-- `AudioProcessor::set_mid_gain`. -/
def AudioProcessor.set_mid_gain (dbToLinear : ℚ → ℚ) (ap : AudioProcessor)
    (db : ℚ) : AudioProcessor :=
  { ap with equalizer := ap.equalizer.set_mid_gain dbToLinear db }

/-- `AudioProcessor::get_mid_gain`. -/
def AudioProcessor.get_mid_gain (ap : AudioProcessor) : ℚ :=
  ap.equalizer.get_mid_gain

/-- `AudioProcessor::set_high_gain`. -/
def AudioProcessor.set_high_gain (dbToLinear : ℚ → ℚ) (ap : AudioProcessor)
    (db : ℚ) : AudioProcessor :=
  { ap with equalizer := ap.equalizer.set_high_gain dbToLinear db }

/-- `AudioProcessor::get_high_gain`. -/
def AudioProcessor.get_high_gain (ap : AudioProcessor) : ℚ :=
  ap.equalizer.get_high_gain

/-! ## audio_analysis.rs -/

/-- The doubling phase of `normalize_to_octave`:
`while normalized < min_target && normalized < 200 { normalized *= 2 }`.
The source loop terminates because every candidate fed to it is a positive
integer BPM; the fuel (64 iterations) is more than enough for all of
those. -/
def octaveUp (fuel : ℕ) (x minT : ℚ) : ℚ :=
  match fuel with
  | 0 => x
  | n + 1 => if x < minT ∧ x < 200 then octaveUp n (x * 2) minT else x

/-- The halving phase of `normalize_to_octave`:
`while normalized > max_target && normalized > 60 { normalized /= 2 }`. -/
def octaveDown (fuel : ℕ) (x maxT : ℚ) : ℚ :=
  match fuel with
  | 0 => x
  | n + 1 => if x > maxT ∧ x > 60 then octaveDown n (x / 2) maxT else x

/-- `AudioAnalyzer::normalize_to_octave`. -/
def normalize_to_octave (bpm minTarget maxTarget : ℚ) : ℚ :=
  octaveDown 64 (octaveUp 64 bpm minTarget) maxTarget

/-- `AudioAnalyzer::consensus_bpm`: octave-normalize the candidates, score
each by total pairwise similarity `1 / (1 + |Δ| / 10)` and keep the first
strict maximiser (initial best is `normalized[0]` with score `0`), then
round.  (`f32::round` is half-away-from-zero; every value reaching this
point is positive, where that agrees with `round : ℚ → ℤ`.) -/
def consensus_bpm (candidates : List ℕ) : ℕ :=
  match candidates with
  | [] => 120
  | [c] => c
  | _ =>
      let normalized := candidates.map
        (fun bpm => normalize_to_octave (bpm : ℚ) 80 160)
      let best := normalized.foldl (fun acc candidate =>
        let score := (normalized.map
          (fun other => 1 / (1 + |candidate - other| / 10))).sum
        if score > acc.2 then (candidate, score) else acc)
        (normalized.headD 0, 0)
      (round best.1).toNat

/-- `AudioAnalyzer::detect_bpm`.  The per-section estimator
`analyze_section_bpm` drives an external FFT library (`rustfft`), so it is
a parameter: the function models the section splitting, the too-short
checks and the default paths exactly as in the source, for *every*
behaviour of the section estimator.  A section yields no estimate when the
estimator returns `0` (the source's `if bpm > 0` filter).
`sectionCandidate` is the loop body of `detect_bpm`: pick the strategic
position for this section index, skip sections shorter than 5 seconds,
and otherwise keep a positive estimate of the slice. -/
def sectionCandidate (analyzeSection : List ℚ → ℕ → ℕ) (samples : List ℚ)
    (sample_rate section_samples section_idx : ℕ) : Option ℕ :=
  let position :=
    if section_idx = 0 then 0
    else if section_idx = 1 then samples.length / 4
    else if section_idx = 2 then samples.length / 2
    else if section_idx = 3 then samples.length * 3 / 4
    else if section_idx = 4 then samples.length - section_samples
    else section_idx * section_samples
  let start := position
  let stop := min (start + section_samples) samples.length
  if stop - start < sample_rate * 5 then none
  else
    let bpm := analyzeSection ((samples.drop start).take (stop - start))
      sample_rate
    if bpm > 0 then some bpm else none

/-- `AudioAnalyzer::detect_bpm`: default 120 under 2 seconds of audio,
otherwise collect per-section candidates (up to 5 sections of 10 seconds)
and return 120 when none succeeds, else the octave-corrected consensus. -/
def detect_bpm (analyzeSection : List ℚ → ℕ → ℕ) (samples : List ℚ)
    (sample_rate : ℕ) : ℕ :=
  if samples.length < sample_rate * 2 then 120
  else
    let section_samples := sample_rate * 10
    let num_sections := max (min (samples.length / section_samples) 5) 1
    let bpm_candidates := (List.range num_sections).filterMap
      (sectionCandidate analyzeSection samples sample_rate section_samples)
    if bpm_candidates.isEmpty then 120
    else consensus_bpm bpm_candidates

/-- `AudioAnalyzer::detect_key`.  `compute_chromatic_bins` uses the Hann
window (cosine) and square roots, so it is a parameter; the empty-input
default, the 3-second truncation, the dominant-bin search (Rust's
`max_by` keeps the *last* maximal element) and the minor-third heuristic
follow the source.  `compute_chromatic_bins` always returns 12 bins. -/
def detect_key (computeBins : List ℚ → ℕ → List ℚ) (samples : List ℚ)
    (sample_rate : ℕ) : String :=
  if samples.isEmpty then "A Minor"
  else
    let analysis_samples := min samples.length (sample_rate * 3)
    let bins := computeBins (samples.take analysis_samples) sample_rate
    -- the source writes this as one 12-entry array literal
    let key_names := ["C", "C#", "D", "D#", "E", "F"]
      ++ ["F#", "G", "G#", "A", "A#", "B"]
    let max_bin := ((List.range bins.length).foldl (fun acc i =>
      match acc with
      | none => some i
      | some j => if bins.getD i 0 ≥ bins.getD j 0 then some i else some j)
      none).getD 9
    let key := key_names.getD max_bin "A"
    let is_minor := bins.getD max_bin 0 > bins.getD ((max_bin + 3) % 12) 0 * 1.2
    key ++ " " ++ (if is_minor then "Minor" else "Major")

/-- Equality of every `AudioProcessor` component except the phase
vocoder: sample rate, FFT size, pitch shifter, equalizer, fader, buffer
pool, both gains, the frame counter and the peak level. -/
def samePipelineState (a b : AudioProcessor) : Prop :=
  a.sample_rate = b.sample_rate ∧ a.fft_size = b.fft_size ∧
  a.pitch_shifter = b.pitch_shifter ∧ a.equalizer = b.equalizer ∧
  a.fader = b.fader ∧ a.buffer_manager = b.buffer_manager ∧
  a.input_gain = b.input_gain ∧ a.master_volume = b.master_volume ∧
  a.frames_processed = b.frames_processed ∧
  a.last_peak_level = b.last_peak_level

/-! ## Concrete states used by witnesses -/

/-- A small concrete `PhaseVocoder` state (fft size 256, identity ratio). -/
def pvExample : PhaseVocoder :=
  { fft_size := 256, hop_size := 64, input_buffer := [], window := []
    prev_phase := [], grain_position := 0, stretch_ratio := 1 }

/-- A small concrete processor state: identity parameters everywhere and a
full pool of four 8-sample buffers, so witnesses evaluate quickly. -/
def apExample : AudioProcessor :=
  { sample_rate := 48000, fft_size := 256
    phase_vocoder := pvExample
    pitch_shifter := { sample_rate := 48000, fft_size := 256
                       pitch_ratio := 1, buffer := [], read_pos := 0 }
    equalizer := Equalizer.new
    fader := Fader.new
    buffer_manager := BufferManager.new 8
    input_gain := 1, master_volume := 1
    frames_processed := 0, last_peak_level := 0 }

/-! ## Helper lemmas -/

theorem rclamp_eq_self {x lo hi : ℚ} (h1 : lo ≤ x) (h2 : x ≤ hi) :
    rclamp x lo hi = x := by
  simp [rclamp, min_eq_left h2, max_eq_right h1]

theorem rclamp_le {x lo hi : ℚ} (h : lo ≤ hi) : rclamp x lo hi ≤ hi :=
  max_le h (min_le_right x hi)

theorem le_rclamp {x lo hi : ℚ} : lo ≤ rclamp x lo hi :=
  le_max_left lo (min x hi)

theorem rclamp_rclamp {x lo hi : ℚ} (h : lo ≤ hi) :
    rclamp (rclamp x lo hi) lo hi = rclamp x lo hi :=
  rclamp_eq_self le_rclamp (rclamp_le h)

theorem pool_size_applyPoolOp_le {bm : BufferManager} (op : PoolOp)
    (h : bm.pool_size ≤ 4) : (applyPoolOp bm op).pool_size ≤ 4 := by
  obtain ⟨pool, sz⟩ := bm
  cases op with
  | get size =>
      cases pool with
      | nil => exact h
      | cons top rest =>
          simp only [BufferManager.pool_size, List.length_cons] at h
          simpa [applyPoolOp, BufferManager.get_buffer,
            BufferManager.pool_size] using Nat.le_of_succ_le h
  | ret buffer =>
      simp only [BufferManager.pool_size] at h ⊢
      simp only [applyPoolOp, BufferManager.return_buffer]
      split
      · next hlt => simp only [List.length_cons]; omega
      · exact h

theorem pool_size_runPool_le (ops : List PoolOp) :
    ∀ bm : BufferManager, bm.pool_size ≤ 4 →
      (runPool bm ops).pool_size ≤ 4 := by
  induction ops with
  | nil => exact fun _ h => h
  | cons op ops ih =>
      exact fun bm h => ih _ (pool_size_applyPoolOp_le op h)

/-! ## Claim theorems -/

/-- C1 (code bug): `get_buffer` is documented to hand out zero-initialised
buffers, but `truncate(size)`/`resize(size, 0.0)` never clears the kept
prefix of a previously returned buffer.  After returning the dirty buffer
`[1, 1]`, `get_buffer 1` hands back `[1]`: the length contract holds but
the all-zero contract fails. -/
theorem C1_get_buffer_returns_stale_data :
    ((((BufferManager.new 4).get_buffer 2).2.return_buffer [1, 1]).get_buffer 1).1
        = [1] ∧
    ¬ ((((BufferManager.new 4).get_buffer 2).2.return_buffer
        [1, 1]).get_buffer 1).1 = List.replicate 1 (0 : ℚ) := by decide

/-- C2 (code bug): `process_frame` contains no `return_buffer` call, so a
valid frame drops both working buffers instead of returning them: from a
full pool of 4 the pool size after one valid call is 2, not 4. -/
theorem C2_working_buffers_not_returned :
    apExample.buffer_manager.pool_size = 4 ∧
    min ([(1 : ℚ)].length) ([(1 : ℚ)].length) = 1 ∧
    ((apExample.process_frame [1] [1]).1).buffer_manager.pool_size = 2 := by
  decide

/-- C6: every scalar setter clamps silently to its documented range: input
gain and master volume to `[0, 2]`, fader position to `[-1, 1]`, pitch
ratio and tempo ratio to `[0.5, 2.0]`, per-band EQ dB values to
`[-12, 12]`; in particular `set_input_gain 5` stores `2` and
`set_fader_position (-5)` stores `-1`. -/
theorem C6_setters_clamp :
    (∀ (ap : AudioProcessor) (x : ℚ),
        (ap.set_input_gain x).get_input_gain = rclamp x 0 2) ∧
    (∀ (ap : AudioProcessor) (x : ℚ),
        (ap.set_master_volume x).get_master_volume = rclamp x 0 2) ∧
    (∀ (ap : AudioProcessor) (x : ℚ),
        (ap.set_fader_position x).get_fader_position = rclamp x (-1) 1) ∧
    (∀ (ps : PitchShifter) (x : ℚ),
        (ps.set_pitch_ratio x).get_pitch_ratio = rclamp x 0.5 2) ∧
    (∀ (ap : AudioProcessor) (x : ℚ),
        (ap.set_tempo_ratio x).get_tempo_ratio = rclamp x 0.5 2) ∧
    (∀ (d : ℚ → ℚ) (ap : AudioProcessor) (x : ℚ),
        (AudioProcessor.set_low_gain d ap x).get_low_gain
          = rclamp x (-12) 12) ∧
    (∀ (d : ℚ → ℚ) (ap : AudioProcessor) (x : ℚ),
        (AudioProcessor.set_mid_gain d ap x).get_mid_gain
          = rclamp x (-12) 12) ∧
    (∀ (d : ℚ → ℚ) (ap : AudioProcessor) (x : ℚ),
        (AudioProcessor.set_high_gain d ap x).get_high_gain
          = rclamp x (-12) 12) ∧
    (∀ ap : AudioProcessor, (ap.set_input_gain 5).get_input_gain = 2) ∧
    (∀ ap : AudioProcessor,
        (ap.set_fader_position (-5)).get_fader_position = -1) := by
  refine ⟨fun ap x => rfl, fun ap x => rfl, fun ap x => rfl, fun ps x => rfl,
    fun ap x => ?_, fun d ap x => rfl, fun d ap x => rfl, fun d ap x => rfl,
    fun ap => ?_, fun ap => ?_⟩
  · show rclamp (rclamp x 0.5 2) 0.5 2 = rclamp x 0.5 2
    exact rclamp_rclamp (by norm_num)
  · show rclamp 5 0 2 = 2
    rw [rclamp, min_eq_right (by norm_num), max_eq_right (by norm_num)]
  · show rclamp (-5) (-1) 1 = -1
    rw [rclamp, min_eq_left (by norm_num), max_eq_left (by norm_num)]

/-- C7: for every interleaving of `get_buffer`/`return_buffer` calls
starting from a fresh manager, the pool size never exceeds 4, and a
`return_buffer` on a full pool drops the buffer, leaving the manager
unchanged. -/
theorem C7_pool_never_exceeds_capacity :
    (∀ (sz : ℕ) (ops : List PoolOp),
        (runPool (BufferManager.new sz) ops).pool_size ≤ 4) ∧
    (∀ (bm : BufferManager) (buffer : List ℚ),
        bm.pool_size = 4 → bm.return_buffer buffer = bm) := by
  constructor
  · intro sz ops
    apply pool_size_runPool_le
    simp [BufferManager.new, BufferManager.pool_size]
  · intro bm buffer h
    simp only [BufferManager.pool_size] at h
    simp [BufferManager.return_buffer, h]

/-- Witness for C7: a concrete run of five operations stays within
capacity, and returning to a concrete full pool is a no-op. -/
theorem C7_pool_never_exceeds_capacity_witness :
    (runPool (BufferManager.new 2)
        [PoolOp.ret [1], PoolOp.ret [2], PoolOp.get 1, PoolOp.ret [3],
         PoolOp.ret [4]]).pool_size ≤ 4 ∧
    (BufferManager.new 3).return_buffer [5] = BufferManager.new 3 :=
  ⟨C7_pool_never_exceeds_capacity.1 2 _,
   C7_pool_never_exceeds_capacity.2 (BufferManager.new 3) [5] (by decide)⟩

/-- C10: an invalid frame size (`min` of the input lengths equal to `0` or
greater than `4096`) returns an empty output and leaves the whole
processor state — pool, statistics and every component — unchanged. -/
theorem C10_invalid_frame_leaves_state_unchanged (ap : AudioProcessor)
    (input_left input_right : List ℚ)
    (h : min input_left.length input_right.length = 0 ∨
         min input_left.length input_right.length > 4096) :
    ap.process_frame input_left input_right = (ap, []) := by
  simp only [AudioProcessor.process_frame, MAX_FRAME_SIZE]
  exact if_pos h

/-- Witness for C10: empty left channel. -/
theorem C10_invalid_frame_leaves_state_unchanged_witness :
    apExample.process_frame [] [1] = (apExample, []) :=
  C10_invalid_frame_leaves_state_unchanged apExample [] [1] (by decide)

/-- C3: the output holds exactly `2 * n` samples for a valid frame size
`n = min (len left) (len right)` with `1 ≤ n ≤ 4096`, and is empty when
`n = 0` or `n > 4096`. -/
theorem C3_output_length (ap : AudioProcessor)
    (input_left input_right : List ℚ) :
    (1 ≤ min input_left.length input_right.length →
     min input_left.length input_right.length ≤ 4096 →
     ((ap.process_frame input_left input_right).2).length
       = 2 * min input_left.length input_right.length) ∧
    (min input_left.length input_right.length = 0 ∨
     min input_left.length input_right.length > 4096 →
     ((ap.process_frame input_left input_right).2).length = 0) := by
  constructor
  · intro h1 h2
    simp only [AudioProcessor.process_frame, MAX_FRAME_SIZE]
    rw [if_neg (by omega)]
    simp only [List.flatMap_def, List.length_flatten, List.map_map]
    simp [Function.comp_def, List.map_const', List.sum_const_nat,
      Nat.mul_comm]
  · intro h
    simp only [AudioProcessor.process_frame, MAX_FRAME_SIZE]
    rw [if_pos h]
    rfl

/-- Witness for C3: frame size 1 gives 2 samples, an empty input gives an
empty output. -/
theorem C3_output_length_witness :
    ((apExample.process_frame [1] [1]).2).length
        = 2 * min ([(1 : ℚ)].length) ([(1 : ℚ)].length) ∧
    ((apExample.process_frame [] []).2).length = 0 :=
  ⟨(C3_output_length apExample [1] [1]).1 (by decide) (by decide),
   (C3_output_length apExample [] []).2 (by decide)⟩

theorem process_frame_ignores_phase_vocoder (ap : AudioProcessor)
    (pv : PhaseVocoder) (input_left input_right : List ℚ) :
    ({ ap with phase_vocoder := pv }.process_frame input_left input_right).2
      = (ap.process_frame input_left input_right).2 ∧
    ({ ap with phase_vocoder := pv }.process_frame input_left input_right).1
      = { (ap.process_frame input_left input_right).1 with
            phase_vocoder := pv } := by
  obtain ⟨sr, fs, pv0, ps, eq, fd, bm, ig, mv, fp, lp⟩ := ap
  by_cases hc : min input_left.length input_right.length = 0 ∨
      min input_left.length input_right.length > MAX_FRAME_SIZE
  · constructor <;>
      · simp only [AudioProcessor.process_frame, if_pos hc]
  · constructor <;>
      · simp only [AudioProcessor.process_frame, if_neg hc]

/-- C4: the tempo-ratio setting writes only the phase vocoder's stretch
ratio, and `process_frame` invokes only the pitch shifter, never the
time-stretch stage: for any two ratios in `[0.5, 2.0]` the outputs are
identical and the post-call states agree on every component other than
the phase vocoder. -/
theorem C4_tempo_ratio_has_no_frame_effect (ap : AudioProcessor)
    (r1 r2 : ℚ) (input_left input_right : List ℚ)
    (ha : 0.5 ≤ r1) (hb : r1 ≤ 2) (hc : 0.5 ≤ r2) (hd : r2 ≤ 2) :
    ((ap.set_tempo_ratio r1).process_frame input_left input_right).2
      = ((ap.set_tempo_ratio r2).process_frame input_left input_right).2 ∧
    samePipelineState
      ((ap.set_tempo_ratio r1).process_frame input_left input_right).1
      ((ap.set_tempo_ratio r2).process_frame input_left input_right).1 := by
  have k1 := process_frame_ignores_phase_vocoder ap
    (ap.phase_vocoder.set_stretch_ratio (rclamp r1 0.5 2))
    input_left input_right
  have k2 := process_frame_ignores_phase_vocoder ap
    (ap.phase_vocoder.set_stretch_ratio (rclamp r2 0.5 2))
    input_left input_right
  have e1 : ap.set_tempo_ratio r1 = { ap with phase_vocoder := ap.phase_vocoder.set_stretch_ratio (rclamp r1 0.5 2) } := rfl
  have e2 : ap.set_tempo_ratio r2 = { ap with phase_vocoder := ap.phase_vocoder.set_stretch_ratio (rclamp r2 0.5 2) } := rfl
  constructor
  · rw [e1, e2, k1.1, k2.1]
  · rw [e1, e2, k1.2, k2.2]
    exact ⟨rfl, rfl, rfl, rfl, rfl, rfl, rfl, rfl, rfl, rfl⟩

/-- Witness for C4: concrete state, ratios `0.5` and `2`, frame `[1]`/`[1]`. -/
theorem C4_tempo_ratio_has_no_frame_effect_witness :
    ((apExample.set_tempo_ratio 0.5).process_frame [1] [1]).2
      = ((apExample.set_tempo_ratio 2).process_frame [1] [1]).2 ∧
    samePipelineState
      ((apExample.set_tempo_ratio 0.5).process_frame [1] [1]).1
      ((apExample.set_tempo_ratio 2).process_frame [1] [1]).1 :=
  C4_tempo_ratio_has_no_frame_effect apExample 0.5 2 [1] [1]
    (by norm_num) (by norm_num) (by norm_num) (by norm_num)

theorem scaleFirst_length (g : ℚ) : ∀ (n : ℕ) (l : List ℚ),
    (scaleFirst g n l).length = l.length
  | 0, _ => rfl
  | _ + 1, [] => rfl
  | n + 1, x :: xs => by simp [scaleFirst, scaleFirst_length g n xs]

theorem scaleFirst_getD (g : ℚ) : ∀ (n : ℕ) (l : List ℚ) (i : ℕ),
    (scaleFirst g n l).getD i 0
      = if i < min n l.length then l.getD i 0 * g else l.getD i 0
  | 0, l, i => by simp [scaleFirst]
  | _ + 1, [], i => by simp [scaleFirst]
  | n + 1, x :: xs, 0 => by
      simp [scaleFirst, Nat.succ_min_succ]
  | n + 1, x :: xs, i + 1 => by
      simp only [scaleFirst, List.getD_cons_succ, List.length_cons,
        Nat.succ_min_succ, Nat.succ_lt_succ_iff]
      exact scaleFirst_getD g n xs i

/-- C5: the fader gains follow the quadratic law `t = (p+1)/2`,
`leftGain = 1 - t²`, `rightGain = t²` (so `0.75`/`0.25` at center), and
`process` multiplies exactly the first `min(size, len left, len right)`
samples of each channel by those gains — except at position exactly `0`,
where both buffers are left entirely unchanged. -/
theorem C5_fader_gains_and_process (p : ℚ) (h1 : -1 ≤ p) (h2 : p ≤ 1)
    (left right : List ℚ) (size : ℕ) :
    (Fader.mk p).get_left_gain = 1 - ((p + 1) / 2) * ((p + 1) / 2) ∧
    (Fader.mk p).get_right_gain = ((p + 1) / 2) * ((p + 1) / 2) ∧
    (Fader.mk 0).get_left_gain = 0.75 ∧
    (Fader.mk 0).get_right_gain = 0.25 ∧
    (p = 0 → (Fader.mk p).process left right size = (left, right)) ∧
    (p ≠ 0 →
      ((Fader.mk p).process left right size).1.length = left.length ∧
      ((Fader.mk p).process left right size).2.length = right.length ∧
      ∀ i : ℕ,
        ((Fader.mk p).process left right size).1.getD i 0
          = (if i < min (min size left.length) right.length
             then left.getD i 0 * (Fader.mk p).get_left_gain
             else left.getD i 0) ∧
        ((Fader.mk p).process left right size).2.getD i 0
          = (if i < min (min size left.length) right.length
             then right.getD i 0 * (Fader.mk p).get_right_gain
             else right.getD i 0)) := by
  refine ⟨?_, ?_, by norm_num [Fader.get_left_gain],
    by norm_num [Fader.get_right_gain], ?_, ?_⟩
  · show 1 - (p + 1) * 0.5 * ((p + 1) * 0.5) = _
    ring
  · show (p + 1) * 0.5 * ((p + 1) * 0.5) = _
    ring
  · intro hp
    simp [Fader.process, hp]
  · intro hp
    have hne : ¬ ((Fader.mk p).position = 0) := hp
    have hn1 : min (min size left.length) right.length ≤ left.length :=
      le_trans (min_le_left _ _) (min_le_right _ _)
    have hn2 : min (min size left.length) right.length ≤ right.length :=
      min_le_right _ _
    refine ⟨?_, ?_, fun i => ⟨?_, ?_⟩⟩
    · simp [Fader.process, hne, scaleFirst_length]
    · simp [Fader.process, hne, scaleFirst_length]
    · simp only [Fader.process, if_neg hne]
      rw [scaleFirst_getD, min_eq_left hn1]
      simp only [Fader.get_left_gain]
    · simp only [Fader.process, if_neg hne]
      rw [scaleFirst_getD, min_eq_left hn2]
      simp only [Fader.get_right_gain]

/-- Witness for C5: center position is the identity; off-center scales the
in-range prefix. -/
theorem C5_fader_gains_and_process_witness :
    (Fader.mk 0).process [1, 2] [3] 5 = ([1, 2], [3]) ∧
    ((Fader.mk (1/2)).process [1, 2] [3] 5).1.length = [(1 : ℚ), 2].length :=
  ⟨(C5_fader_gains_and_process 0 (by norm_num) (by norm_num) [1, 2] [3]
      5).2.2.2.2.1 rfl,
   ((C5_fader_gains_and_process (1/2) (by norm_num) (by norm_num) [1, 2] [3]
      5).2.2.2.2.2 (by norm_num)).1⟩

/-- C8 (amended): after `set_stretch_ratio r` with `r ∈ [0.5, 2.0]`,
`process` returns `⌈L / r⌉` samples whenever `|r - 1| ≥ 0.001`; ratios in
the identity fast path (`|r - 1| < 0.001`) return the input unchanged,
hence exactly `L` samples. -/
theorem C8_process_output_length (pv : PhaseVocoder) (ratio : ℚ)
    (input : List ℚ) (h1 : 0.5 ≤ ratio) (h2 : ratio ≤ 2) :
    (0.001 ≤ |ratio - 1| →
      ((pv.set_stretch_ratio ratio).process input).length
        = ⌈(input.length : ℚ) / ratio⌉₊) ∧
    (|ratio - 1| < 0.001 →
      ((pv.set_stretch_ratio ratio).process input).length = input.length) := by
  have hr : (pv.set_stretch_ratio ratio).stretch_ratio = ratio := by
    simp only [PhaseVocoder.set_stretch_ratio]
    exact rclamp_eq_self h1 h2
  constructor
  · intro h
    simp only [PhaseVocoder.process, hr, if_neg (not_lt.mpr h)]
    rw [List.length_map, List.length_range, Int.ceil_toNat]
  · intro h
    simp only [PhaseVocoder.process, hr, if_pos h]

/-- Witness for C8: ratio `2` on three samples gives `⌈3/2⌉ = 2` samples,
ratio `1` is the identity. -/
theorem C8_process_output_length_witness :
    ((pvExample.set_stretch_ratio 2).process [1, 2, 3]).length
      = ⌈(([(1 : ℚ), 2, 3].length : ℚ)) / 2⌉₊ ∧
    ((pvExample.set_stretch_ratio 1).process [1, 2]).length
      = [(1 : ℚ), 2].length :=
  ⟨(C8_process_output_length pvExample 2 [1, 2, 3] (by norm_num)
      (by norm_num)).1
      (by rw [show (2 : ℚ) - 1 = 1 by norm_num, abs_one]; norm_num),
   (C8_process_output_length pvExample 1 [1, 2] (by norm_num)
      (by norm_num)).2
      (by rw [show (1 : ℚ) - 1 = 0 by norm_num, abs_zero]; norm_num)⟩

/-- C8 counterexample: the claim as stated fails inside the identity fast
path.  `set_stretch_ratio 1.0005` keeps the ratio (it lies in
`[0.5, 2.0]`), `|1.0005 - 1| < 0.001` makes `process` return its input
unchanged, so 2001 input samples yield 2001 output samples while the claim
demands `⌈2001 / 1.0005⌉ = 2000`. -/
theorem C8_claim_counterexample :
    ((pvExample.set_stretch_ratio 1.0005).process
        (List.replicate 2001 0)).length = 2001 ∧
    ⌈((List.replicate 2001 (0 : ℚ)).length : ℚ) / 1.0005⌉₊ = 2000 ∧
    ((pvExample.set_stretch_ratio 1.0005).process
        (List.replicate 2001 0)).length
      ≠ ⌈((List.replicate 2001 (0 : ℚ)).length : ℚ) / 1.0005⌉₊ := by
  have hr : (pvExample.set_stretch_ratio 1.0005).stretch_ratio = 1.0005 := by
    simp only [PhaseVocoder.set_stretch_ratio]
    exact rclamp_eq_self (by norm_num) (by norm_num)
  have hcond : |(1.0005 : ℚ) - 1| < 0.001 := by
    rw [show (1.0005 : ℚ) - 1 = 0.0005 by norm_num,
      abs_of_nonneg (by norm_num)]
    norm_num
  have hid : ((pvExample.set_stretch_ratio 1.0005).process
      (List.replicate 2001 0)).length = 2001 := by
    simp only [PhaseVocoder.process, hr, if_pos hcond]
    rw [List.length_replicate]
  have hceil : ⌈((List.replicate 2001 (0 : ℚ)).length : ℚ) / 1.0005⌉₊
      = 2000 := by
    rw [List.length_replicate,
      show ((2001 : ℕ) : ℚ) / 1.0005 = 2000 by push_cast; norm_num]
    exact Nat.ceil_ofNat 2000
  exact ⟨hid, hceil, by rw [hid, hceil]; norm_num⟩

/-- C9: BPM detection returns the default 120 for inputs shorter than two
seconds and also when no track section yields an estimate (for every
behaviour of the FFT-driven per-section estimator), and key detection on
empty input returns exactly `"A Minor"`. -/
theorem C9_detection_defaults :
    (∀ (analyzeSection : List ℚ → ℕ → ℕ) (samples : List ℚ)
        (sample_rate : ℕ), samples.length < sample_rate * 2 →
        detect_bpm analyzeSection samples sample_rate = 120) ∧
    (∀ (analyzeSection : List ℚ → ℕ → ℕ) (samples : List ℚ)
        (sample_rate : ℕ), (∀ s n, analyzeSection s n = 0) →
        detect_bpm analyzeSection samples sample_rate = 120) ∧
    (∀ (computeBins : List ℚ → ℕ → List ℚ) (sample_rate : ℕ),
        detect_key computeBins [] sample_rate = "A Minor") := by
  refine ⟨fun f samples sr h => ?_, fun f samples sr h => ?_,
    fun g sr => rfl⟩
  · simp [detect_bpm, h]
  · by_cases hlen : samples.length < sr * 2
    · simp [detect_bpm, hlen]
    · have hnone : ∀ i, sectionCandidate f samples sr (sr * 10) i = none := by
        intro i
        simp [sectionCandidate, h]
      have hnil : (List.range (max (min (samples.length / (sr * 10)) 5)
          1)).filterMap (sectionCandidate f samples sr (sr * 10)) = [] :=
        List.filterMap_eq_nil_iff.mpr (fun a _ => hnone a)
      simp [detect_bpm, hlen, hnil]

/-- Witness for C9: one sample at 1 Hz is under two seconds; two samples
at 1 Hz pass the length check but the only section is shorter than five
seconds, so no estimate is produced; `detect_key` on `[]`. -/
theorem C9_detection_defaults_witness :
    detect_bpm (fun _ _ => 0) [0] 1 = 120 ∧
    detect_bpm (fun _ _ => 0) [0, 0] 1 = 120 ∧
    detect_key (fun _ _ => []) [] 44100 = "A Minor" :=
  ⟨C9_detection_defaults.1 (fun _ _ => 0) [0] 1 (by norm_num),
   C9_detection_defaults.2.1 (fun _ _ => 0) [0, 0] 1 (fun _ _ => rfl),
   C9_detection_defaults.2.2 (fun _ _ => []) 44100⟩

end AudioEngine
